import Mathlib

/-!
Shallow embedding of the FAST_API_DELIVERY order-management API
(src/models.py, src/schemas.py, src/dependencies.py,
src/routers/auth_routers.py, src/routers/order_routers.py).

Modelling conventions:
* SQLAlchemy rows become Lean structures; the database session becomes an
  explicit `Store` value threaded through the operations; `commit` is the
  returned store.
* Python `float` prices are modelled as `Rat`; Python unbounded `int` as `Int`
  (`Nat` for autoincrement ids).
* `query(...).filter(...).first()` becomes `List.find?` (first match);
  mutating the object fetched by `.first()` becomes replacing the first
  matching list element.
* Fallible handlers return `Except HTTPException result`; `raise
  HTTPException(code, detail)` becomes `.error ⟨code, detail⟩`.
* Pydantic `Optional[bool]` fields are `Option Bool`; Python truthiness of
  such a value is `pyTruthy`.  A stored SQL `NULL` boolean behaves exactly
  like `False` in every read path of this code base (truthiness tests and
  `== True` filters), so `User` stores the truthiness-collapsed `Bool`.
* Argon2 hashing and verification are external primitives: operations that
  hash take an abstract `hashFn : String → String`, login verification takes
  an abstract `verifyFn : String → String → Bool` (plaintext, digest).
* JWTs: `jwt.encode` of the payload `{sub, exp}` signed with a secret and
  algorithm is a `Token` record carrying the payload together with the key
  and algorithm it was signed with; `jwt.decode` succeeds iff key and
  algorithm match the configuration and the `exp` claim has not passed.
-/

namespace FastApiDelivery

/-- HTTPException as raised by the handlers: status code and detail string. -/
structure HTTPException where
  status_code : Nat
  detail : String
deriving Repr, DecidableEq

/-- Row of the `users` table (src/models.py, class User). -/
structure User where
  id : Nat
  name : String
  email : String
  password : String
  activated : Bool
  admin : Bool
deriving Repr, DecidableEq

/-- Row of the `order_itens` table (src/models.py, class OrderItens).
`size` is an `Int` because the request schema types it as `int`
(src/schemas.py, OrderItemSchema), which is the value actually stored. -/
structure OrderItem where
  id : Nat
  quantity : Int
  flavor : String
  size : Int
  unit_price : Rat
  order : Nat
deriving Repr, DecidableEq

/-- Row of the `orders` table (src/models.py, class Order), together with its
`itens` relationship (the `order_itens` rows whose `order` column is this
order's id; the relationship is kept inline as the owning collection). -/
structure Order where
  id : Nat
  user : Nat
  status : String
  price : Rat
  itens : List OrderItem
deriving Repr, DecidableEq

/-- The relational store: the tables reachable from the handlers plus the
autoincrement counters for fresh primary keys. -/
structure Store where
  users : List User
  orders : List Order
  nextUserId : Nat
  nextOrderId : Nat
  nextItemId : Nat
deriving Repr, DecidableEq

/-- Pydantic UserSchema (src/schemas.py): `activated` and `admin` are
`Optional[bool]`. -/
structure UserSchema where
  name : String
  email : String
  password : String
  activated : Option Bool
  admin : Option Bool
deriving Repr, DecidableEq

/-- Pydantic OrderSchema (src/schemas.py). -/
structure OrderSchema where
  user_id : Nat
deriving Repr, DecidableEq

/-- Pydantic OrderItemSchema (src/schemas.py): `quantity : int` and
`unit_price : float` carry no positivity or sign constraints. -/
structure OrderItemSchema where
  quantity : Int
  flavor : String
  size : Int
  unit_price : Rat
deriving Repr, DecidableEq

/-- Python truthiness of an `Optional[bool]` value: `None` is falsy. -/
def pyTruthy : Option Bool → Bool
  | some b => b
  | none => false

/-- Environment configuration read in src/main.py. -/
structure Config where
  secret_key : String
  algorithm : String
  access_token_expire_minutes : Nat
deriving Repr, DecidableEq

/-- A signed JWT: the `{sub, exp}` payload plus the key and algorithm it was
signed with (the signature is modelled by carrying them). -/
structure Token where
  sub : String
  exp : Int
  secret : String
  alg : String
deriving Repr, DecidableEq

/-! ### Query helpers (SQLAlchemy `.first()` and first-match update) -/

/-- Embeds `session.query(User).filter(User.email == email).first()`. -/
def findUserByEmail (users : List User) (email : String) : Option User :=
  users.find? (fun u => u.email == email)

/-- Embeds `session.query(User).filter(User.admin == True).first()`. -/
def findAdmin (users : List User) : Option User :=
  users.find? (fun u => u.admin)

/-- Embeds `session.query(User).filter(User.id == user_id).first()`. -/
def findUserById (users : List User) (uid : Nat) : Option User :=
  users.find? (fun u => u.id == uid)

/-- Embeds `session.query(Order).filter(Order.id == order_id).first()`. -/
def findOrderById (orders : List Order) (oid : Nat) : Option Order :=
  orders.find? (fun o => o.id == oid)

/-- Replace the first order whose id matches, mirroring a mutation of the
object returned by `.first()`. -/
def updateFirstOrder : List Order → Nat → (Order → Order) → List Order
  | [], _, _ => []
  | o :: rest, oid, f =>
    if o.id == oid then f o :: rest else o :: updateFirstOrder rest oid f

/-- Embeds `session.query(OrderItens).filter(OrderItens.id == order_item_id).first()`:
scan of the `order_itens` table, here grouped under the owning orders. -/
def findItemById : List Order → Nat → Option OrderItem
  | [], _ => none
  | o :: rest, iid =>
    match o.itens.find? (fun it => it.id == iid) with
    | some it => some it
    | none => findItemById rest iid

/-- Embeds `session.delete(order_item)`: remove the first item with the given id
(the object fetched by `.first()`). -/
def removeFirstItem : List OrderItem → Nat → List OrderItem
  | [], _ => []
  | it :: rest, iid => if it.id == iid then rest else it :: removeFirstItem rest iid

/-! ### Order model methods -/

/-- Sum in `Order.calculate_price` (src/models.py):
`sum(item.unit_price * item.quantity for item in self.itens)`. -/
def calcPrice (itens : List OrderItem) : Rat :=
  (itens.map (fun item => item.unit_price * (item.quantity : Rat))).sum

/-- Method `Order.calculate_price` (src/models.py): sets `price` from the current
item collection. -/
def Order.calculate_price (o : Order) : Order :=
  { o with price := calcPrice o.itens }

/-! ### Token service and authentication (src/routers/auth_routers.py,
src/dependencies.py) -/

/-- Lifetime in seconds of the default access token:
`timedelta(minutes=ACCESS_TOKEN_EXPIRE_MINUTES)`. -/
def accessTokenTime (cfg : Config) : Int :=
  (cfg.access_token_expire_minutes : Int) * 60

/-- Lifetime in seconds of the refresh token issued at login:
`timedelta(days=7)`. -/
def refreshTokenTime : Int := 7 * 86400

/-- Function `get_token` (src/routers/auth_routers.py): payload
`{"sub": str(user_id), "exp": int((now + token_time).timestamp())}`, signed
with `SECRET_KEY` and `ALGORITHM`.  `now` and `token_time` are in epoch
seconds. -/
def get_token (cfg : Config) (user_id : Nat) (token_time : Int) (now : Int) : Token :=
  { sub := toString user_id
    exp := now + token_time
    secret := cfg.secret_key
    alg := cfg.algorithm }

/-- Embeds `jwt.decode(token, SECRET_KEY, ALGORITHM)` at time `now`: succeeds iff the
token was signed with the configured key and algorithm and its `exp` claim has
not passed; returns the payload. -/
def jwt_decode (cfg : Config) (now : Int) (t : Token) : Option (String × Int) :=
  if t.secret = cfg.secret_key ∧ t.alg = cfg.algorithm ∧ now ≤ t.exp then
    some (t.sub, t.exp)
  else
    none

/-- Helper for `pyInt`: accumulate decimal digits left to right. -/
def parseNatAux : List Char → Nat → Option Nat
  | [], acc => some acc
  | c :: rest, acc =>
    if c.isDigit then parseNatAux rest (acc * 10 + (c.toNat - 48))
    else none

/-- Python `int(...)` applied to the token subject: parses the decimal
literals produced by `str(user_id)` and fails on anything that is not a run
of digits (the failure is an uncaught exception in the source, see
`verify_token`). -/
def pyInt (s : String) : Option Nat :=
  match s.data with
  | [] => none
  | l => parseNatAux l 0

/-- Dependency `verify_token` (src/dependencies.py) composed with the
`OAuth2PasswordBearer` header extraction: a missing bearer token is rejected
401 by the security scheme before the dependency body runs; a token that fails
`jwt.decode` (bad signature, wrong algorithm, expired) raises 401; a decoded
subject that is not a numeric literal escapes the `except JWTError` clause as
an uncaught `int()` error (modelled as status 500); a subject matching no
stored user raises 401; otherwise the user row is the principal. -/
def verify_token (cfg : Config) (now : Int) (token : Option Token) (s : Store) :
    Except HTTPException User :=
  match token with
  | none => .error ⟨401, "Not authenticated"⟩
  | some t =>
    match jwt_decode cfg now t with
    | none => .error ⟨401, "Access denied, check token validity"⟩
    | some (sub, _) =>
      match pyInt sub with
      | none => .error ⟨500, "Internal Server Error"⟩
      | some uid =>
        match findUserById s.users uid with
        | none => .error ⟨401, "Invalid access"⟩
        | some user => .ok user

/-- Run a handler behind the router-level and route-level
`Depends(verify_token)` gate (src/routers/order_routers.py line 8 and each
route): both dependencies evaluate `verify_token` identically, so one gate is
modelled. -/
def secured (cfg : Config) (now : Int) (token : Option Token) (s : Store)
    (handler : User → Except HTTPException α) : Except HTTPException α :=
  match verify_token cfg now token s with
  | .error e => .error e
  | .ok user => handler user

/-- Function `authenticate_user` (src/routers/auth_routers.py): look the user up by
email and check the password against the stored digest; `False` becomes
`none`. -/
def authenticate_user (verifyFn : String → String → Bool)
    (email password : String) (s : Store) : Option User :=
  match findUserByEmail s.users email with
  | none => none
  | some user => if verifyFn password user.password then some user else none

/-- Is the optional principal present and itself admin?  Mirrors the Python
test `not current_user or not current_user.admin` (negated). -/
def principalIsAdmin : Option User → Bool
  | none => false
  | some u => u.admin

/-- Body of `signup` (src/routers/auth_routers.py lines 78-91).  The
`current_user` parameter is the optional principal the body is written
against (`if not current_user or not current_user.admin`).  On success the
new user row is committed and the confirmation message returned. -/
def signup (hashFn : String → String) (user_schema : UserSchema)
    (current_user : Option User) (s : Store) :
    Except HTTPException (Store × String) :=
  if (findUserByEmail s.users user_schema.email).isSome then
    .error ⟨400, "This user already exists with this email."⟩
  else if (findAdmin s.users).isSome ∧ pyTruthy user_schema.admin = true
          ∧ principalIsAdmin current_user = false then
    .error ⟨403, "Only admins can create new admin users."⟩
  else
    let new_user : User :=
      { id := s.nextUserId
        name := user_schema.name
        email := user_schema.email
        password := hashFn user_schema.password
        activated := pyTruthy user_schema.activated
        admin := pyTruthy user_schema.admin }
    .ok ({ s with users := s.users ++ [new_user], nextUserId := s.nextUserId + 1 },
         "User " ++ user_schema.email ++ " registered successfully.")

/-- The `/auth/signup` endpoint: `current_user: User = Depends(verify_token)`
is a required dependency, so the principal is resolved (or the request
rejected) before the body runs. -/
def signup_endpoint (hashFn : String → String) (cfg : Config) (now : Int)
    (token : Option Token) (user_schema : UserSchema) (s : Store) :
    Except HTTPException (Store × String) :=
  match verify_token cfg now token s with
  | .error e => .error e
  | .ok user => signup hashFn user_schema (some user) s

/-- Handler registered under `/auth/signup_admin` (src/routers/auth_routers.py lines
93-107): no authentication dependency, no admin check, and the password is
truncated to its first 72 characters before hashing. -/
def signup_admin (hashFn : String → String) (user_schema : UserSchema) (s : Store) :
    Except HTTPException (Store × String) :=
  if (findUserByEmail s.users user_schema.email).isSome then
    .error ⟨400, "This user already exists with this email."⟩
  else
    let new_user : User :=
      { id := s.nextUserId
        name := user_schema.name
        email := user_schema.email
        password := hashFn (user_schema.password.take 72)
        activated := pyTruthy user_schema.activated
        admin := pyTruthy user_schema.admin }
    .ok ({ s with users := s.users ++ [new_user], nextUserId := s.nextUserId + 1 },
         "User " ++ user_schema.email ++ " registered successfully.")

/-- Handler `login` (src/routers/auth_routers.py): on valid credentials returns the
access and refresh tokens. -/
def login (verifyFn : String → String → Bool) (cfg : Config) (now : Int)
    (login_email login_password : String) (s : Store) :
    Except HTTPException (Token × Token) :=
  match authenticate_user verifyFn login_email login_password s with
  | none => .error ⟨400, "User not found or invalid password."⟩
  | some user =>
    .ok (get_token cfg user.id (accessTokenTime cfg) now,
         get_token cfg user.id refreshTokenTime now)

/-- Handler `user_refresh_token` under `/auth/refresh`: any principal accepted by
`verify_token` receives a fresh access token. -/
def user_refresh_token (cfg : Config) (now : Int) (token : Option Token)
    (s : Store) : Except HTTPException Token :=
  match verify_token cfg now token s with
  | .error e => .error e
  | .ok user => .ok (get_token cfg user.id (accessTokenTime cfg) now)

/-! ### Order handlers (src/routers/order_routers.py), at principal level.
Each endpoint additionally sits behind `secured` (the router dependency). -/

/-- Handler `order` under POST `/orders/order`: create an order for
`order_schema.user_id` with the `Order.__init__` defaults
(`status="pending"`, `price=0`, empty item collection). -/
def order_create (order_schema : OrderSchema) (user : User) (s : Store) :
    Except HTTPException (Store × Nat) :=
  if !user.admin && user.id != order_schema.user_id then
    .error ⟨403, "You are not authorized to make this request."⟩
  else
    let new_order : Order :=
      { id := s.nextOrderId, user := order_schema.user_id
        status := "pending", price := 0, itens := [] }
    .ok ({ s with orders := s.orders ++ [new_order], nextOrderId := s.nextOrderId + 1 },
         new_order.id)

/-- Handler `list_orders` under GET `/orders/list`: admin only. -/
def list_orders (user : User) (s : Store) : Except HTTPException (List Order) :=
  if !user.admin then
    .error ⟨403, "You are not authorized to make this request."⟩
  else
    .ok s.orders

/-- Handler `list_user_orders` under GET `/orders/list/orders_user/(user_id)`. -/
def list_user_orders (user_id : Nat) (user : User) (s : Store) :
    Except HTTPException (List Order) :=
  if !user.admin && user.id != user_id then
    .error ⟨403, "You are not authorized to make this request."⟩
  else
    .ok (s.orders.filter (fun o => o.user == user_id))

/-- Handler `get_order` under GET `/orders/order/(order_id)`: returns the item count
and the order. -/
def get_order (order_id : Nat) (user : User) (s : Store) :
    Except HTTPException (Nat × Order) :=
  match findOrderById s.orders order_id with
  | none => .error ⟨400, "Order not found."⟩
  | some order =>
    if !user.admin && user.id != order.user then
      .error ⟨403, "You are not authorized to make this request."⟩
    else
      .ok (order.itens.length, order)

/-- Handler `add_iten_order` under POST `/orders/order/add_item/(order_id)`: append a
new `OrderItens` row built from the schema (no sign validation anywhere),
recompute the price via `Order.calculate_price` (the lazy load of
`order.itens` autoflushes the pending insert, so the new row is included),
commit, and return the new item id and the recomputed price. -/
def add_iten_order (order_id : Nat) (order_item_schema : OrderItemSchema)
    (user : User) (s : Store) : Except HTTPException (Store × Nat × Rat) :=
  match findOrderById s.orders order_id with
  | none => .error ⟨400, "Order not found."⟩
  | some order =>
    if !user.admin && user.id != order.user then
      .error ⟨403, "You are not authorized to make this request."⟩
    else
      let order_item : OrderItem :=
        { id := s.nextItemId
          quantity := order_item_schema.quantity
          flavor := order_item_schema.flavor
          size := order_item_schema.size
          unit_price := order_item_schema.unit_price
          order := order_id }
      .ok ({ s with
               orders := updateFirstOrder s.orders order_id
                 (fun o => Order.calculate_price { o with itens := o.itens ++ [order_item] })
               nextItemId := s.nextItemId + 1 },
           order_item.id,
           calcPrice (order.itens ++ [order_item]))

/-- Handler `remove_iten_order` under POST `/orders/order/remove_item/(order_item_id)`:
look the item up, fetch its owning order, authorize against that order, delete
the row, recompute the price (the autoflushed delete excludes the row from the
reloaded collection), commit.  When the item dangles (its order id matches no
order) the Python body hits `order.user` on `None` and dies with an uncaught
`AttributeError`, modelled as status 500. -/
def remove_iten_order (order_item_id : Nat) (user : User) (s : Store) :
    Except HTTPException (Store × List OrderItem × Order) :=
  match findItemById s.orders order_item_id with
  | none => .error ⟨400, "Item not found."⟩
  | some order_item =>
    match findOrderById s.orders order_item.order with
    | none => .error ⟨500, "Internal Server Error"⟩
    | some order =>
      if !user.admin && user.id != order.user then
        .error ⟨403, "You are not authorized to make this request."⟩
      else
        let new_itens := removeFirstItem order.itens order_item_id
        .ok ({ s with
                 orders := updateFirstOrder s.orders order_item.order
                   (fun o => Order.calculate_price
                     { o with itens := removeFirstItem o.itens order_item_id }) },
             new_itens,
             Order.calculate_price { order with itens := new_itens })

/-- Handler `cancel_order` under POST `order/cancel/(order_id)`: sets
`order.status = "canceled"` unconditionally on the current status. -/
def cancel_order (order_id : Nat) (user : User) (s : Store) :
    Except HTTPException (Store × Order) :=
  match findOrderById s.orders order_id with
  | none => .error ⟨400, "Order not found."⟩
  | some order =>
    if !user.admin && user.id != order.user then
      .error ⟨403, "You are not authorized to make this request."⟩
    else
      .ok ({ s with
               orders := updateFirstOrder s.orders order_id
                 (fun o => { o with status := "canceled" }) },
           { order with status := "canceled" })

/-- Handler `complete_order` under POST `order/complete/(order_id)`: sets
`order.status = "completed"` unconditionally on the current status. -/
def complete_order (order_id : Nat) (user : User) (s : Store) :
    Except HTTPException (Store × Order) :=
  match findOrderById s.orders order_id with
  | none => .error ⟨400, "Order not found."⟩
  | some order =>
    if !user.admin && user.id != order.user then
      .error ⟨403, "You are not authorized to make this request."⟩
    else
      .ok ({ s with
               orders := updateFirstOrder s.orders order_id
                 (fun o => { o with status := "completed" }) },
           { order with status := "completed" })

/-! ### Facts about the query helpers -/

/-- Unfolding lemma: order lookup on the empty table. -/
theorem findOrderById_nil (oid : Nat) : findOrderById [] oid = none := rfl

/-- Unfolding lemma: order lookup stops at a matching head. -/
theorem findOrderById_cons_pos {a : Order} {oid : Nat} (rest : List Order)
    (h : (a.id == oid) = true) : findOrderById (a :: rest) oid = some a := by
  simp [findOrderById, List.find?_cons, h]

/-- Unfolding lemma: order lookup skips a non-matching head. -/
theorem findOrderById_cons_neg {a : Order} {oid : Nat} (rest : List Order)
    (h : (a.id == oid) = false) :
    findOrderById (a :: rest) oid = findOrderById rest oid := by
  simp [findOrderById, List.find?_cons, h]

/-- Unfolding lemma: first-match update rewrites a matching head. -/
theorem updateFirstOrder_cons_pos {a : Order} {oid : Nat} (rest : List Order)
    (f : Order → Order) (h : (a.id == oid) = true) :
    updateFirstOrder (a :: rest) oid f = f a :: rest := by
  simp [updateFirstOrder, h]

/-- Unfolding lemma: first-match update skips a non-matching head. -/
theorem updateFirstOrder_cons_neg {a : Order} {oid : Nat} (rest : List Order)
    (f : Order → Order) (h : (a.id == oid) = false) :
    updateFirstOrder (a :: rest) oid f = a :: updateFirstOrder rest oid f := by
  simp [updateFirstOrder, h]

/-- A found order belongs to the table. -/
theorem findOrderById_mem {orders : List Order} {oid : Nat} {o : Order}
    (h : findOrderById orders oid = some o) : o ∈ orders :=
  List.mem_of_find?_eq_some h

/-- A found order carries the id it was looked up by. -/
theorem findOrderById_id {orders : List Order} {oid : Nat} {o : Order}
    (h : findOrderById orders oid = some o) : o.id = oid := by
  simp only [findOrderById] at h
  simpa using List.find?_some h

/-- Updating the first matching order rewrites exactly the order the lookup
returns, provided the update keeps the id. -/
theorem findOrderById_updateFirstOrder {orders : List Order} {oid : Nat}
    {o : Order} (f : Order → Order)
    (hfind : findOrderById orders oid = some o) (hid : (f o).id = o.id) :
    findOrderById (updateFirstOrder orders oid f) oid = some (f o) := by
  induction orders with
  | nil => simp [findOrderById_nil] at hfind
  | cons a rest ih =>
    cases ha : (a.id == oid) with
    | true =>
      have hao : a = o := by
        rw [findOrderById_cons_pos rest ha] at hfind
        exact Option.some.inj hfind
      subst hao
      have hfa : ((f a).id == oid) = true := by
        rw [hid]
        exact ha
      rw [updateFirstOrder_cons_pos rest f ha, findOrderById_cons_pos rest hfa]
    | false =>
      rw [findOrderById_cons_neg rest ha] at hfind
      rw [updateFirstOrder_cons_neg rest f ha,
        findOrderById_cons_neg (updateFirstOrder rest oid f) ha]
      exact ih hfind

/-- Every order of the updated table is an original order or the image of an
original order under the update. -/
theorem updateFirstOrder_mem {orders : List Order} {oid : Nat}
    {f : Order → Order} {o' : Order} (h : o' ∈ updateFirstOrder orders oid f) :
    o' ∈ orders ∨ ∃ o, o ∈ orders ∧ o' = f o := by
  induction orders with
  | nil => simp [updateFirstOrder] at h
  | cons a rest ih =>
    cases ha : (a.id == oid) with
    | true =>
      rw [updateFirstOrder_cons_pos rest f ha] at h
      rcases List.mem_cons.mp h with heq | hmem
      · exact Or.inr ⟨a, List.mem_cons_self a rest, heq⟩
      · exact Or.inl (List.mem_cons_of_mem a hmem)
    | false =>
      rw [updateFirstOrder_cons_neg rest f ha] at h
      rcases List.mem_cons.mp h with heq | hmem
      · exact Or.inl (heq ▸ List.mem_cons_self a rest)
      · rcases ih hmem with h' | ⟨o, ho, heq'⟩
        · exact Or.inl (List.mem_cons_of_mem a h')
        · exact Or.inr ⟨o, List.mem_cons_of_mem a ho, heq'⟩

/-! ### Shared concrete fixtures for witnesses and counterexamples -/

/-- Admin user fixture. -/
def alice : User := ⟨1, "Alice", "alice@mail.com", "digestA", true, true⟩

/-- Non-admin order owner fixture. -/
def bob : User := ⟨2, "Bob", "bob@mail.com", "digestB", true, false⟩

/-- Non-admin stranger fixture. -/
def carol : User := ⟨3, "Carol", "carol@mail.com", "digestC", true, false⟩

/-- Item fixture: quantity 2 at unit price 3, on order 1. -/
def item1 : OrderItem := ⟨1, 2, "chocolate", 1, 3, 1⟩

/-- Pending order fixture owned by `bob`, holding `item1`. -/
def order1 : Order := ⟨1, 2, "pending", 6, [item1]⟩

/-- Base store fixture: three users, one consistent pending order. -/
def baseStore : Store := ⟨[alice, bob, carol], [order1], 4, 2, 2⟩

/-- Deterministic stand-in for the external Argon2 hash in witnesses. -/
def hashW : String → String := fun plaintext => "argon2id:" ++ plaintext

/-- Configuration fixture. -/
def cfgW : Config := ⟨"supersecret", "HS256", 30⟩

/-- Empty store fixture. -/
def emptyStore : Store := ⟨[], [], 1, 1, 1⟩

/-- Signup request fixture asking for an admin account. -/
def adminSchema : UserSchema := ⟨"Root", "root@mail.com", "rootpw", some true, some true⟩

/-! ### C8 -/

/-- C8: the list-all-orders operation succeeds, returning all orders, iff the
principal is admin, and fails with 403 Forbidden for every non-admin
principal, regardless of which orders that principal owns (the store, and
hence the ownership relation, is arbitrary). -/
theorem list_orders_admin_only (user : User) (s : Store) :
    (user.admin = true → list_orders user s = .ok s.orders)
    ∧ (user.admin = false →
        list_orders user s =
          .error ⟨403, "You are not authorized to make this request."⟩) := by
  constructor <;> intro h <;> simp [list_orders, h]

/-- Witness for C8: the admin `alice` receives the full order list while the
non-admin owner `bob` is rejected 403 on the same store. -/
theorem list_orders_admin_only_wit :
    list_orders alice baseStore = .ok baseStore.orders
    ∧ list_orders bob baseStore =
        .error ⟨403, "You are not authorized to make this request."⟩ :=
  ⟨(list_orders_admin_only alice baseStore).1 rfl,
   (list_orders_admin_only bob baseStore).2 rfl⟩

/-! ### C1 -/

/-- C1: admin-bootstrap rule of the signup body (src/routers/auth_routers.py
lines 78-91), for an optional current principal as the body is written
against: with a fresh email, an admin-flagged signup is allowed when no admin
exists; when an admin exists it is allowed exactly for an admin principal and
otherwise rejected 403; and a signup without the admin flag is never rejected
with 403 (its only failure is the 400 duplicate email). -/
theorem signup_admin_bootstrap_rule (hashFn : String → String)
    (sch : UserSchema) (p : Option User) (s : Store) :
    (findUserByEmail s.users sch.email = none → findAdmin s.users = none →
      (signup hashFn sch p s).isOk = true)
    ∧ (findUserByEmail s.users sch.email = none →
        (findAdmin s.users).isSome = true → pyTruthy sch.admin = true →
        principalIsAdmin p = false →
        signup hashFn sch p s =
          .error ⟨403, "Only admins can create new admin users."⟩)
    ∧ (findUserByEmail s.users sch.email = none →
        (findAdmin s.users).isSome = true → pyTruthy sch.admin = true →
        principalIsAdmin p = true → (signup hashFn sch p s).isOk = true)
    ∧ (pyTruthy sch.admin = false →
        ∀ e, signup hashFn sch p s = .error e → e.status_code = 400) := by
  refine ⟨?_, ?_, ?_, ?_⟩
  · intro hmail hadmin
    simp [signup, hmail, hadmin, Except.isOk, Except.toBool]
  · intro hmail hadmin hflag hprin
    simp [signup, hmail, hadmin, hflag, hprin]
  · intro hmail hadmin hflag hprin
    simp [signup, hmail, hadmin, hflag, hprin, Except.isOk, Except.toBool]
  · intro hflag e
    by_cases hmail : (findUserByEmail s.users sch.email).isSome = true
    · simp only [signup, hmail, if_true]
      intro he
      cases he
      rfl
    · simp [signup, hmail, hflag]

/-- Witness for C1: on the empty store the admin-flagged signup of `adminSchema`
succeeds without any principal (first-admin bootstrap); on `baseStore`, which
contains the admin `alice`, the same signup is rejected 403 without an admin
principal, succeeds for `alice`, and a non-admin signup is never rejected 403. -/
theorem signup_admin_bootstrap_rule_wit :
    (signup hashW adminSchema none emptyStore).isOk = true
    ∧ signup hashW adminSchema (some bob) baseStore =
        .error ⟨403, "Only admins can create new admin users."⟩
    ∧ (signup hashW adminSchema (some alice) baseStore).isOk = true
    ∧ ∀ e, signup hashW ⟨"Dan", "dan@mail.com", "pw", some true, some false⟩
        (some bob) baseStore = .error e → e.status_code = 400 :=
  ⟨(signup_admin_bootstrap_rule hashW adminSchema none emptyStore).1
      (by decide) (by decide),
   (signup_admin_bootstrap_rule hashW adminSchema (some bob) baseStore).2.1
      (by decide) (by decide) (by decide) (by decide),
   (signup_admin_bootstrap_rule hashW adminSchema (some alice) baseStore).2.2.1
      (by decide) (by decide) (by decide) (by decide),
   (signup_admin_bootstrap_rule hashW
      ⟨"Dan", "dan@mail.com", "pw", some true, some false⟩ (some bob)
      baseStore).2.2.2 (by decide)⟩

/-! ### C9 -/

/-- C9: the `/auth/signup_admin` handler takes no principal at all, performs
no admin-bootstrap check, creates a user carrying exactly the requested admin
flag whenever the email is fresh, can only fail with the 400 duplicate-email
conflict (never 403), and hashes only the first 72 characters of the
password, so two requests whose passwords agree on those characters produce
identical stores and hence users indistinguishable at login. -/
theorem signup_admin_no_auth_no_bootstrap (hashFn : String → String)
    (verifyFn : String → String → Bool) (sch : UserSchema) (s : Store) :
    ((findUserByEmail s.users sch.email).isSome = true →
      signup_admin hashFn sch s =
        .error ⟨400, "This user already exists with this email."⟩)
    ∧ (findUserByEmail s.users sch.email = none →
        signup_admin hashFn sch s = .ok
          ({ s with
              users := s.users ++ [⟨s.nextUserId, sch.name, sch.email,
                hashFn (sch.password.take 72), pyTruthy sch.activated,
                pyTruthy sch.admin⟩]
              nextUserId := s.nextUserId + 1 },
           "User " ++ sch.email ++ " registered successfully."))
    ∧ (∀ e, signup_admin hashFn sch s = .error e → e.status_code = 400)
    ∧ (∀ p₂, sch.password.take 72 = p₂.take 72 →
        signup_admin hashFn { sch with password := p₂ } s =
          signup_admin hashFn sch s)
    ∧ (∀ p₂ s₁ m₁ s₂ m₂, sch.password.take 72 = p₂.take 72 →
        signup_admin hashFn sch s = .ok (s₁, m₁) →
        signup_admin hashFn { sch with password := p₂ } s = .ok (s₂, m₂) →
        ∀ em q, authenticate_user verifyFn em q s₁ =
          authenticate_user verifyFn em q s₂) := by
  have hrepl : ∀ p₂, sch.password.take 72 = p₂.take 72 →
      signup_admin hashFn { sch with password := p₂ } s =
        signup_admin hashFn sch s := by
    intro p₂ hp
    simp [signup_admin, hp]
  refine ⟨?_, ?_, ?_, hrepl, ?_⟩
  · intro hmail
    simp [signup_admin, hmail]
  · intro hmail
    simp [signup_admin, hmail]
  · intro e
    by_cases hmail : (findUserByEmail s.users sch.email).isSome = true
    · simp only [signup_admin, hmail, if_true]
      intro he
      cases he
      rfl
    · simp [signup_admin, hmail]
  · intro p₂ s₁ m₁ s₂ m₂ hp h₁ h₂
    rw [hrepl p₂ hp, h₁] at h₂
    cases h₂
    intro em q
    rfl

set_option maxRecDepth 8000 in
/-- Witness for C9: on `baseStore` a fresh admin-flagged request succeeds with
no principal in sight; a duplicate of the email of `bob` yields 400; and two
requests whose 80-character passwords share the first 72 characters produce
the same store. -/
theorem signup_admin_no_auth_no_bootstrap_wit :
    (signup_admin hashW adminSchema baseStore).isOk = true
    ∧ signup_admin hashW ⟨"Bob2", "bob@mail.com", "pw", some true, some false⟩
        baseStore = .error ⟨400, "This user already exists with this email."⟩
    ∧ signup_admin hashW
        { adminSchema with password := "aaaaaaaaaaaaaaaaaaaaaaaaaaaaaaaaaaaaaaaaaaaaaaaaaaaaaaaaaaaaaaaaaaaaaaaaXXXXXXXX" } baseStore =
      signup_admin hashW
        { adminSchema with password := "aaaaaaaaaaaaaaaaaaaaaaaaaaaaaaaaaaaaaaaaaaaaaaaaaaaaaaaaaaaaaaaaaaaaaaaaYYYYYYYY" } baseStore := by
  refine ⟨?_, ?_, ?_⟩
  · rw [(signup_admin_no_auth_no_bootstrap hashW (fun _ _ => false)
      adminSchema baseStore).2.1 (by decide)]
    rfl
  · exact (signup_admin_no_auth_no_bootstrap hashW (fun _ _ => false)
      ⟨"Bob2", "bob@mail.com", "pw", some true, some false⟩ baseStore).1 (by decide)
  · exact ((signup_admin_no_auth_no_bootstrap hashW (fun _ _ => false)
      { adminSchema with password := "aaaaaaaaaaaaaaaaaaaaaaaaaaaaaaaaaaaaaaaaaaaaaaaaaaaaaaaaaaaaaaaaaaaaaaaaYYYYYYYY" } baseStore).2.2.2.1
      "aaaaaaaaaaaaaaaaaaaaaaaaaaaaaaaaaaaaaaaaaaaaaaaaaaaaaaaaaaaaaaaaaaaaaaaaXXXXXXXX" (by decide))

/-! ### C2 -/

/-- C2: ownership-based access control is uniform.  For any principal and any
existing order, each of `get_order`, `add_iten_order`, `remove_iten_order`,
`cancel_order` and `complete_order` succeeds exactly when the principal is
admin or owns the order, and when the principal is neither, each of the five
operations fails with the 403 Forbidden error. -/
theorem ownership_access_uniform (user : User) (s : Store) (oid : Nat)
    (o : Order) (hfind : findOrderById s.orders oid = some o) :
    ((get_order oid user s).isOk = (user.admin || user.id == o.user))
    ∧ (∀ sch, (add_iten_order oid sch user s).isOk =
        (user.admin || user.id == o.user))
    ∧ ((cancel_order oid user s).isOk = (user.admin || user.id == o.user))
    ∧ ((complete_order oid user s).isOk = (user.admin || user.id == o.user))
    ∧ (∀ iid it, findItemById s.orders iid = some it → it.order = oid →
        (remove_iten_order iid user s).isOk = (user.admin || user.id == o.user))
    ∧ ((user.admin || user.id == o.user) = false →
        get_order oid user s =
          .error ⟨403, "You are not authorized to make this request."⟩
        ∧ (∀ sch, add_iten_order oid sch user s =
            .error ⟨403, "You are not authorized to make this request."⟩)
        ∧ cancel_order oid user s =
            .error ⟨403, "You are not authorized to make this request."⟩
        ∧ complete_order oid user s =
            .error ⟨403, "You are not authorized to make this request."⟩
        ∧ (∀ iid it, findItemById s.orders iid = some it → it.order = oid →
            remove_iten_order iid user s =
              .error ⟨403, "You are not authorized to make this request."⟩)) := by
  have hchk : (!user.admin && user.id != o.user) =
      !(user.admin || user.id == o.user) := by
    cases user.admin <;> simp [bne]
  refine ⟨?_, ?_, ?_, ?_, ?_, ?_⟩
  · cases hauth : (user.admin || user.id == o.user) <;>
      simp [get_order, hfind, hchk, hauth, Except.isOk, Except.toBool]
  · intro sch
    cases hauth : (user.admin || user.id == o.user) <;>
      simp [add_iten_order, hfind, hchk, hauth, Except.isOk, Except.toBool]
  · cases hauth : (user.admin || user.id == o.user) <;>
      simp [cancel_order, hfind, hchk, hauth, Except.isOk, Except.toBool]
  · cases hauth : (user.admin || user.id == o.user) <;>
      simp [complete_order, hfind, hchk, hauth, Except.isOk, Except.toBool]
  · intro iid it hitem hito
    subst hito
    cases hauth : (user.admin || user.id == o.user) <;>
      simp [remove_iten_order, hitem, hfind, hchk, hauth, Except.isOk,
        Except.toBool]
  · intro hauth
    refine ⟨?_, ?_, ?_, ?_, ?_⟩
    · simp [get_order, hfind, hchk, hauth]
    · intro sch
      simp [add_iten_order, hfind, hchk, hauth]
    · simp [cancel_order, hfind, hchk, hauth]
    · simp [complete_order, hfind, hchk, hauth]
    · intro iid it hitem hito
      subst hito
      simp [remove_iten_order, hitem, hfind, hchk, hauth]

/-- Witness for C2 on `baseStore`: the stranger `carol` is rejected 403 on
the order of `bob`, while `bob` (owner) and `alice` (admin) pass, including
item removal. -/
theorem ownership_access_uniform_wit :
    (get_order 1 carol baseStore).isOk = (carol.admin || carol.id == order1.user)
    ∧ get_order 1 carol baseStore =
        .error ⟨403, "You are not authorized to make this request."⟩
    ∧ (get_order 1 bob baseStore).isOk = (bob.admin || bob.id == order1.user)
    ∧ (get_order 1 alice baseStore).isOk = (alice.admin || alice.id == order1.user)
    ∧ (remove_iten_order 1 alice baseStore).isOk =
        (alice.admin || alice.id == order1.user) :=
  ⟨(ownership_access_uniform carol baseStore 1 order1 (by decide)).1,
   ((ownership_access_uniform carol baseStore 1 order1 (by decide)).2.2.2.2.2
      (by decide)).1,
   (ownership_access_uniform bob baseStore 1 order1 (by decide)).1,
   (ownership_access_uniform alice baseStore 1 order1 (by decide)).1,
   (ownership_access_uniform alice baseStore 1 order1 (by decide)).2.2.2.2.1
      1 item1 (by decide) (by decide)⟩

/-! ### C3 -/

/-- Price consistency: every order's stored `price` is the sum over its items
of `quantity * unit_price`. -/
def priceInv (s : Store) : Prop :=
  ∀ o ∈ s.orders, o.price = calcPrice o.itens

/-- Mapping a field that the update leaves unchanged over the updated table
gives the original column. -/
theorem updateFirstOrder_map_price {orders : List Order} {oid : Nat}
    {f : Order → Order} (h : ∀ o, (f o).price = o.price) :
    (updateFirstOrder orders oid f).map Order.price = orders.map Order.price := by
  induction orders with
  | nil => rfl
  | cons a rest ih =>
    cases ha : (a.id == oid) with
    | true =>
      rw [updateFirstOrder_cons_pos rest f ha]
      simp [h]
    | false =>
      rw [updateFirstOrder_cons_neg rest f ha]
      simp [ih]

/-- The price invariant survives a first-match update whose result is
consistent whenever its input is. -/
theorem priceInv_updateFirstOrder {orders : List Order} {oid : Nat}
    {f : Order → Order} (hinv : ∀ o ∈ orders, o.price = calcPrice o.itens)
    (hf : ∀ o, o.price = calcPrice o.itens →
      (f o).price = calcPrice (f o).itens) :
    ∀ o' ∈ updateFirstOrder orders oid f, o'.price = calcPrice o'.itens := by
  intro o' h
  rcases updateFirstOrder_mem h with hm | ⟨o, ho, heq⟩
  · exact hinv o' hm
  · rw [heq]
    exact hf o (hinv o ho)

/-- C3: the price invariant holds after every store-mutating operation.  The
item-set mutations `add_iten_order` and `remove_iten_order` recompute the
price synchronously (the committed order and the returned payload already
satisfy the invariant, and the returned price is the stored one);
`order_create` creates a consistent empty order; `cancel_order` and
`complete_order` leave the whole price column untouched; the signup
operations do not touch the orders table at all.  No other operation in the
code base writes to any store. -/
theorem price_invariant (user : User) (s : Store) (hinv : priceInv s) :
    (∀ oid sch s' iid pr, add_iten_order oid sch user s = .ok (s', iid, pr) →
      priceInv s' ∧ (findOrderById s'.orders oid).map Order.price = some pr)
    ∧ (∀ iid s' l o2, remove_iten_order iid user s = .ok (s', l, o2) →
        priceInv s' ∧ o2.price = calcPrice o2.itens)
    ∧ (∀ osch s' n, order_create osch user s = .ok (s', n) → priceInv s')
    ∧ (∀ oid s' o2, cancel_order oid user s = .ok (s', o2) →
        priceInv s' ∧ s'.orders.map Order.price = s.orders.map Order.price)
    ∧ (∀ oid s' o2, complete_order oid user s = .ok (s', o2) →
        priceInv s' ∧ s'.orders.map Order.price = s.orders.map Order.price)
    ∧ (∀ hashFn sch p s' m, signup hashFn sch p s = .ok (s', m) →
        s'.orders = s.orders)
    ∧ (∀ hashFn sch s' m, signup_admin hashFn sch s = .ok (s', m) →
        s'.orders = s.orders) := by
  refine ⟨?_, ?_, ?_, ?_, ?_, ?_, ?_⟩
  · intro oid sch s' iid pr hadd
    simp only [add_iten_order] at hadd
    cases hfind : findOrderById s.orders oid with
    | none => simp [hfind] at hadd
    | some o =>
      simp only [hfind] at hadd
      by_cases hchk : (!user.admin && user.id != o.user) = true
      · simp [hchk] at hadd
      · rw [if_neg hchk] at hadd
        simp only [Except.ok.injEq, Prod.mk.injEq] at hadd
        obtain ⟨rfl, rfl, rfl⟩ := hadd
        constructor
        · intro o' ho'
          exact priceInv_updateFirstOrder hinv (fun x _ => rfl) o' ho'
        · rw [findOrderById_updateFirstOrder _ hfind rfl]
          rfl
  · intro iid s' l o2 hrem
    simp only [remove_iten_order] at hrem
    cases hitem : findItemById s.orders iid with
    | none => simp [hitem] at hrem
    | some it =>
      simp only [hitem] at hrem
      cases hford : findOrderById s.orders it.order with
      | none => simp [hford] at hrem
      | some o =>
        simp only [hford] at hrem
        by_cases hchk : (!user.admin && user.id != o.user) = true
        · simp [hchk] at hrem
        · rw [if_neg hchk] at hrem
          simp only [Except.ok.injEq, Prod.mk.injEq] at hrem
          obtain ⟨rfl, rfl, rfl⟩ := hrem
          exact ⟨fun o' ho' =>
            priceInv_updateFirstOrder hinv (fun x _ => rfl) o' ho', rfl⟩
  · intro osch s' n hord
    simp only [order_create] at hord
    by_cases hchk : (!user.admin && user.id != osch.user_id) = true
    · simp [hchk] at hord
    · rw [if_neg hchk] at hord
      simp only [Except.ok.injEq, Prod.mk.injEq] at hord
      obtain ⟨rfl, rfl⟩ := hord
      intro o' ho'
      rcases List.mem_append.mp ho' with hm | hm
      · exact hinv o' hm
      · rw [List.mem_singleton.mp hm]
        rfl
  · intro oid s' o2 hcan
    simp only [cancel_order] at hcan
    cases hfind : findOrderById s.orders oid with
    | none => simp [hfind] at hcan
    | some o =>
      simp only [hfind] at hcan
      by_cases hchk : (!user.admin && user.id != o.user) = true
      · simp [hchk] at hcan
      · rw [if_neg hchk] at hcan
        simp only [Except.ok.injEq, Prod.mk.injEq] at hcan
        obtain ⟨rfl, rfl⟩ := hcan
        refine ⟨fun o' ho' =>
          priceInv_updateFirstOrder (f := fun x => { x with status := "canceled" })
            hinv (fun x hx => hx) o' ho', ?_⟩
        exact updateFirstOrder_map_price (fun x => rfl)
  · intro oid s' o2 hcom
    simp only [complete_order] at hcom
    cases hfind : findOrderById s.orders oid with
    | none => simp [hfind] at hcom
    | some o =>
      simp only [hfind] at hcom
      by_cases hchk : (!user.admin && user.id != o.user) = true
      · simp [hchk] at hcom
      · rw [if_neg hchk] at hcom
        simp only [Except.ok.injEq, Prod.mk.injEq] at hcom
        obtain ⟨rfl, rfl⟩ := hcom
        refine ⟨fun o' ho' =>
          priceInv_updateFirstOrder (f := fun x => { x with status := "completed" })
            hinv (fun x hx => hx) o' ho', ?_⟩
        exact updateFirstOrder_map_price (fun x => rfl)
  · intro hashFn sch p s' m hsgn
    simp only [signup] at hsgn
    by_cases hmail : (findUserByEmail s.users sch.email).isSome = true
    · simp [hmail] at hsgn
    · rw [if_neg hmail] at hsgn
      by_cases hden : ((findAdmin s.users).isSome = true ∧ pyTruthy sch.admin = true
          ∧ principalIsAdmin p = false)
      · simp [hden] at hsgn
      · rw [if_neg hden] at hsgn
        simp only [Except.ok.injEq, Prod.mk.injEq] at hsgn
        obtain ⟨rfl, rfl⟩ := hsgn
        rfl
  · intro hashFn sch s' m hsgn
    simp only [signup_admin] at hsgn
    by_cases hmail : (findUserByEmail s.users sch.email).isSome = true
    · simp [hmail] at hsgn
    · rw [if_neg hmail] at hsgn
      simp only [Except.ok.injEq, Prod.mk.injEq] at hsgn
      obtain ⟨rfl, rfl⟩ := hsgn
      rfl

/-- Witness for C3: on `baseStore` (which satisfies the invariant) an item
addition by the owner `bob` commits a store that again satisfies the
invariant. -/
theorem price_invariant_wit :
    priceInv
      ⟨[alice, bob, carol],
       [⟨1, 2, "pending", 10, [item1, ⟨2, 1, "vanilla", 2, 4, 1⟩]⟩], 4, 2, 3⟩ := by
  have hbase : priceInv baseStore := by
    intro o ho
    simp only [baseStore, List.mem_singleton] at ho
    subst ho
    norm_num [order1, item1, calcPrice]
  exact ((price_invariant bob baseStore hbase).1 1 ⟨1, "vanilla", 2, 4⟩
    ⟨[alice, bob, carol],
     [⟨1, 2, "pending", 10, [item1, ⟨2, 1, "vanilla", 2, 4, 1⟩]⟩], 4, 2, 3⟩
    2 10 (by norm_num [add_iten_order, findOrderById, baseStore, order1, item1,
      bob, updateFirstOrder, Order.calculate_price, calcPrice,
      List.find?_cons])).1

/-! ### C5 -/

/-- Store fixture whose only order is already in the terminal status
`completed`. -/
def completedStore : Store :=
  ⟨[alice, bob, carol], [⟨1, 2, "completed", 0, []⟩], 4, 2, 1⟩

/-- Counterexample to C5: the code does not guard terminal statuses.  On a
store whose only order is already `completed`, `cancel_order` by the owner
succeeds and rewrites the status to `canceled`, so an operation does change
the status of a completed order, contrary to the claim. -/
theorem cancel_escapes_completed_cex :
    (findOrderById completedStore.orders 1).map Order.status = some "completed"
    ∧ cancel_order 1 bob completedStore = .ok
        (⟨[alice, bob, carol], [⟨1, 2, "canceled", 0, []⟩], 4, 2, 1⟩,
         ⟨1, 2, "canceled", 0, []⟩) :=
  ⟨rfl, rfl⟩

/-- C5 as amended: every order is created with status `pending`, and
`cancel_order` / `complete_order` set the status of any existing, authorized
order to `canceled` / `completed` respectively, regardless of its current
status — the terminal statuses are not guarded, so the `pending -> canceled`
and `pending -> completed` transitions exist but are not the only ones. -/
theorem status_transitions_unguarded (user : User) (s : Store) :
    (∀ osch s' n, order_create osch user s = .ok (s', n) →
      ∃ o ∈ s'.orders, o.id = n ∧ o.status = "pending"
        ∧ o.price = 0 ∧ o.itens = [])
    ∧ (∀ oid o, findOrderById s.orders oid = some o →
        (user.admin || user.id == o.user) = true →
        ∃ s', cancel_order oid user s = .ok (s', { o with status := "canceled" })
          ∧ (findOrderById s'.orders oid).map Order.status = some "canceled")
    ∧ (∀ oid o, findOrderById s.orders oid = some o →
        (user.admin || user.id == o.user) = true →
        ∃ s', complete_order oid user s =
            .ok (s', { o with status := "completed" })
          ∧ (findOrderById s'.orders oid).map Order.status = some "completed") := by
  refine ⟨?_, ?_, ?_⟩
  · intro osch s' n hord
    simp only [order_create] at hord
    by_cases hchk : (!user.admin && user.id != osch.user_id) = true
    · simp [hchk] at hord
    · rw [if_neg hchk] at hord
      simp only [Except.ok.injEq, Prod.mk.injEq] at hord
      obtain ⟨rfl, rfl⟩ := hord
      refine ⟨⟨s.nextOrderId, osch.user_id, "pending", 0, []⟩, ?_, rfl, rfl, rfl, rfl⟩
      simp
  · intro oid o hfind hauth
    have hchk : (!user.admin && user.id != o.user) = false := by
      cases hadm : user.admin <;> simp_all [bne]
    refine ⟨{ s with
        orders := updateFirstOrder s.orders oid
          (fun x => { x with status := "canceled" }) }, ?_, ?_⟩
    · simp [cancel_order, hfind, hchk]
    · rw [findOrderById_updateFirstOrder
        (f := fun x => { x with status := "canceled" }) hfind rfl]
      rfl
  · intro oid o hfind hauth
    have hchk : (!user.admin && user.id != o.user) = false := by
      cases hadm : user.admin <;> simp_all [bne]
    refine ⟨{ s with
        orders := updateFirstOrder s.orders oid
          (fun x => { x with status := "completed" }) }, ?_, ?_⟩
    · simp [complete_order, hfind, hchk]
    · rw [findOrderById_updateFirstOrder
        (f := fun x => { x with status := "completed" }) hfind rfl]
      rfl

/-- Witness for the amended C5: order creation on `baseStore` yields a
pending order, and `cancel_order` on the already-completed order of
`completedStore` succeeds with status `canceled`. -/
theorem status_transitions_unguarded_wit :
    (∃ o ∈ (⟨[alice, bob, carol], [order1, ⟨2, 2, "pending", 0, []⟩], 4, 3, 2⟩
        : Store).orders, o.id = 2 ∧ o.status = "pending"
        ∧ o.price = 0 ∧ o.itens = [])
    ∧ (∃ s', cancel_order 1 bob completedStore =
          .ok (s', { (⟨1, 2, "completed", 0, []⟩ : Order) with status := "canceled" })
        ∧ (findOrderById s'.orders 1).map Order.status = some "canceled") :=
  ⟨(status_transitions_unguarded bob baseStore).1 ⟨2⟩
      ⟨[alice, bob, carol], [order1, ⟨2, 2, "pending", 0, []⟩], 4, 3, 2⟩ 2 rfl,
   (status_transitions_unguarded bob completedStore).2.1 1
      ⟨1, 2, "completed", 0, []⟩ rfl (by decide)⟩

/-! ### C4 -/

/-- Counterexample to C4: a request whose quantity is the negative integer -3
and whose unit price is -2 is not rejected with a validation error —
`add_iten_order` accepts it, stores the item verbatim and recomputes the
price to 6 + (-3) * (-2) = 12. -/
theorem add_item_negative_accepted_cex :
    add_iten_order 1 ⟨-3, "chocolate", 1, -2⟩ bob baseStore = .ok
      (⟨[alice, bob, carol],
        [⟨1, 2, "pending", 12, [item1, ⟨2, -3, "chocolate", 1, -2, 1⟩]⟩],
        4, 2, 3⟩,
       2, 12) := by
  norm_num [add_iten_order, findOrderById, baseStore, order1, item1, bob,
    updateFirstOrder, Order.calculate_price, calcPrice, List.find?_cons]

/-- C4 as amended: `add_iten_order` performs no sign validation at all.  For
every request on an existing, authorized order — whatever the quantity
(positive, zero or negative) and whatever the unit price (including
negative) — the item is appended verbatim and the price recomputed.  (Only
the pydantic type constraints hold: quantity is an integer, unit price a
number.) -/
theorem add_item_no_validation (oid : Nat) (sch : OrderItemSchema)
    (user : User) (s : Store) (o : Order)
    (hfind : findOrderById s.orders oid = some o)
    (hauth : (user.admin || user.id == o.user) = true) :
    ∃ s', add_iten_order oid sch user s = .ok (s', s.nextItemId,
        calcPrice (o.itens ++
          [⟨s.nextItemId, sch.quantity, sch.flavor, sch.size, sch.unit_price, oid⟩]))
      ∧ findOrderById s'.orders oid = some (Order.calculate_price
          { o with itens := o.itens ++
            [⟨s.nextItemId, sch.quantity, sch.flavor, sch.size, sch.unit_price, oid⟩] }) := by
  have hchk : (!user.admin && user.id != o.user) = false := by
    cases hadm : user.admin <;> simp_all [bne]
  refine ⟨{ s with
      orders := updateFirstOrder s.orders oid (fun x =>
        Order.calculate_price { x with itens := x.itens ++
          [⟨s.nextItemId, sch.quantity, sch.flavor, sch.size, sch.unit_price, oid⟩] })
      nextItemId := s.nextItemId + 1 }, ?_, ?_⟩
  · simp [add_iten_order, hfind, hchk]
  · exact findOrderById_updateFirstOrder
      (f := fun x => Order.calculate_price { x with itens := x.itens ++
        [⟨s.nextItemId, sch.quantity, sch.flavor, sch.size, sch.unit_price, oid⟩] })
      hfind rfl

/-- Witness for the amended C4: the owner `bob` adds an item with quantity 0
and negative unit price to his order; the operation succeeds and the item is
stored. -/
theorem add_item_no_validation_wit :
    ∃ s', add_iten_order 1 ⟨0, "mint", 3, -5⟩ bob baseStore = .ok
        (s', baseStore.nextItemId,
         calcPrice (order1.itens ++ [⟨baseStore.nextItemId, 0, "mint", 3, -5, 1⟩]))
      ∧ findOrderById s'.orders 1 = some (Order.calculate_price
          { order1 with itens := order1.itens ++
            [⟨baseStore.nextItemId, 0, "mint", 3, -5, 1⟩] }) :=
  add_item_no_validation 1 ⟨0, "mint", 3, -5⟩ bob baseStore order1 rfl (by decide)

/-! ### C7 -/

/-- Unfolding lemma: item lookup succeeds at an order holding the item. -/
theorem findItemById_cons_some {a : Order} {rest : List Order} {iid : Nat}
    {it : OrderItem} (h : a.itens.find? (fun x => x.id == iid) = some it) :
    findItemById (a :: rest) iid = some it := by
  simp [findItemById, h]

/-- Unfolding lemma: item lookup skips an order without the item. -/
theorem findItemById_cons_none {a : Order} {rest : List Order} {iid : Nat}
    (h : a.itens.find? (fun x => x.id == iid) = none) :
    findItemById (a :: rest) iid = findItemById rest iid := by
  simp [findItemById, h]

/-- Finding a freshly appended item: no existing item carries the fresh id,
so the first (and only) match is the appended one. -/
theorem find_append_fresh_item {l : List OrderItem} {item : OrderItem}
    {n : Nat} (hl : ∀ it ∈ l, it.id ≠ n) (hid : item.id = n) :
    (l ++ [item]).find? (fun x => x.id == n) = some item := by
  induction l with
  | nil => simp [List.find?_cons, hid]
  | cons a rest ih =>
    have ha : (a.id == n) = false := by
      simp [hl a (List.mem_cons_self a rest)]
    rw [List.cons_append]
    simp only [List.find?_cons, ha]
    exact ih (fun it hit => hl it (List.mem_cons_of_mem a hit))

/-- Deleting a freshly appended item restores the original collection. -/
theorem removeFirstItem_append_fresh {l : List OrderItem} {item : OrderItem}
    {n : Nat} (hl : ∀ it ∈ l, it.id ≠ n) (hid : (item.id == n) = true) :
    removeFirstItem (l ++ [item]) n = l := by
  induction l with
  | nil => simp [removeFirstItem, hid]
  | cons a rest ih =>
    have ha : (a.id == n) = false := by
      simp [hl a (List.mem_cons_self a rest)]
    rw [List.cons_append]
    simp only [removeFirstItem, ha, Bool.false_eq_true, if_false, List.cons.injEq]
    exact ⟨trivial, ih (fun it hit => hl it (List.mem_cons_of_mem a hit))⟩

/-- After appending a fresh-id item to the looked-up order, the global item
scan finds exactly that item. -/
theorem findItemById_after_append {orders : List Order} {oid n : Nat}
    {o : Order} {item : OrderItem} (f : Order → Order)
    (hfind : findOrderById orders oid = some o)
    (hfresh : ∀ o2 ∈ orders, ∀ it ∈ o2.itens, it.id < n)
    (hid : item.id = n)
    (hfo : (f o).itens = o.itens ++ [item]) :
    findItemById (updateFirstOrder orders oid f) n = some item := by
  induction orders with
  | nil => simp [findOrderById_nil] at hfind
  | cons a rest ih =>
    cases ha : (a.id == oid) with
    | true =>
      have hao : a = o := by
        rw [findOrderById_cons_pos rest ha] at hfind
        exact Option.some.inj hfind
      subst hao
      rw [updateFirstOrder_cons_pos rest f ha]
      refine findItemById_cons_some ?_
      rw [hfo]
      exact find_append_fresh_item
        (fun it hit => Nat.ne_of_lt (hfresh a (List.mem_cons_self a rest) it hit))
        hid
    | false =>
      rw [findOrderById_cons_neg rest ha] at hfind
      rw [updateFirstOrder_cons_neg rest f ha]
      rw [findItemById_cons_none ?_]
      · exact ih hfind (fun o2 h2 => hfresh o2 (List.mem_cons_of_mem a h2))
      · rw [List.find?_eq_none]
        intro it hit
        simp [Nat.ne_of_lt (hfresh a (List.mem_cons_self a rest) it hit)]

/-- C7: adding an item and then removing exactly that item restores the
order price.  Hypotheses: the order exists, its stored price satisfies the
price invariant (claim C3), the principal may access it, and — as the
autoincremented primary key guarantees in the database — no existing item
already carries the next item id.  Both the order object returned by
`remove_iten_order` and the committed row carry the original price again. -/
theorem add_then_remove_restores_price (oid : Nat) (sch : OrderItemSchema)
    (user : User) (s : Store) (o : Order)
    (hfind : findOrderById s.orders oid = some o)
    (hprice : o.price = calcPrice o.itens)
    (hauth : (user.admin || user.id == o.user) = true)
    (hfresh : ∀ o2 ∈ s.orders, ∀ it ∈ o2.itens, it.id < s.nextItemId) :
    ∃ s1 pr1, add_iten_order oid sch user s = .ok (s1, s.nextItemId, pr1)
      ∧ ∃ s2 l2 o2, remove_iten_order s.nextItemId user s1 = .ok (s2, l2, o2)
        ∧ o2.price = o.price
        ∧ (findOrderById s2.orders oid).map Order.price = some o.price := by
  have hchk : (!user.admin && user.id != o.user) = false := by
    cases hadm : user.admin <;> simp_all [bne]
  have hoitems : ∀ it ∈ o.itens, it.id ≠ s.nextItemId :=
    fun it hit => Nat.ne_of_lt (hfresh o (findOrderById_mem hfind) it hit)
  refine ⟨{ s with
      orders := updateFirstOrder s.orders oid (fun x =>
        Order.calculate_price { x with itens := x.itens ++
          [⟨s.nextItemId, sch.quantity, sch.flavor, sch.size, sch.unit_price, oid⟩] })
      nextItemId := s.nextItemId + 1 },
    calcPrice (o.itens ++
      [⟨s.nextItemId, sch.quantity, sch.flavor, sch.size, sch.unit_price, oid⟩]),
    ?_, ?_⟩
  · simp [add_iten_order, hfind, hchk]
  · have hitem : findItemById (updateFirstOrder s.orders oid (fun x =>
        Order.calculate_price { x with itens := x.itens ++
          [⟨s.nextItemId, sch.quantity, sch.flavor, sch.size, sch.unit_price, oid⟩] }))
        s.nextItemId =
        some ⟨s.nextItemId, sch.quantity, sch.flavor, sch.size, sch.unit_price, oid⟩ :=
      findItemById_after_append _ hfind hfresh rfl rfl
    have hford : findOrderById (updateFirstOrder s.orders oid (fun x =>
        Order.calculate_price { x with itens := x.itens ++
          [⟨s.nextItemId, sch.quantity, sch.flavor, sch.size, sch.unit_price, oid⟩] }))
        oid =
        some (Order.calculate_price { o with itens := o.itens ++
          [⟨s.nextItemId, sch.quantity, sch.flavor, sch.size, sch.unit_price, oid⟩] }) :=
      findOrderById_updateFirstOrder _ hfind rfl
    have hrm : removeFirstItem (o.itens ++ [⟨s.nextItemId, sch.quantity, sch.flavor, sch.size, sch.unit_price, oid⟩]) s.nextItemId = o.itens :=
      removeFirstItem_append_fresh hoitems (by simp)
    have hchk2 : (!user.admin && user.id !=
        (Order.calculate_price { o with itens := o.itens ++ [⟨s.nextItemId, sch.quantity, sch.flavor, sch.size, sch.unit_price, oid⟩] }).user) = false :=
      hchk
    refine ⟨{
        users := s.users,
        orders := updateFirstOrder
          (updateFirstOrder s.orders oid (fun x =>
            Order.calculate_price { x with itens := x.itens ++ [⟨s.nextItemId, sch.quantity, sch.flavor, sch.size, sch.unit_price, oid⟩] }))
          oid
          (fun x => Order.calculate_price
            { x with itens := removeFirstItem x.itens s.nextItemId }),
        nextUserId := s.nextUserId,
        nextOrderId := s.nextOrderId,
        nextItemId := s.nextItemId + 1 },
      removeFirstItem
        (Order.calculate_price { o with itens := o.itens ++ [⟨s.nextItemId, sch.quantity, sch.flavor, sch.size, sch.unit_price, oid⟩] }).itens
        s.nextItemId,
      Order.calculate_price
        { Order.calculate_price { o with itens := o.itens ++ [⟨s.nextItemId, sch.quantity, sch.flavor, sch.size, sch.unit_price, oid⟩] } with
            itens := removeFirstItem
              (Order.calculate_price { o with itens := o.itens ++ [⟨s.nextItemId, sch.quantity, sch.flavor, sch.size, sch.unit_price, oid⟩] }).itens
              s.nextItemId },
      ?_, ?_, ?_⟩
    · simp only [remove_iten_order, hitem, hford, hchk2, Bool.false_eq_true,
        if_false]
    · simp only [Order.calculate_price, hrm]
      exact hprice.symm
    · have hford2 := findOrderById_updateFirstOrder
        (f := fun x => Order.calculate_price
          { x with itens := removeFirstItem x.itens s.nextItemId }) hford rfl
      rw [hford2]
      simp only [Option.map_some, Order.calculate_price, hrm]
      rw [hprice]
      rfl

/-- Witness for C7: the owner `bob` adds an item to his order on `baseStore`
and removes the item just added; the price returns to its pre-add value. -/
theorem add_then_remove_restores_price_wit :
    ∃ s1 pr1, add_iten_order 1 ⟨1, "vanilla", 2, 4⟩ bob baseStore =
        .ok (s1, baseStore.nextItemId, pr1)
      ∧ ∃ s2 l2 o2, remove_iten_order baseStore.nextItemId bob s1 = .ok (s2, l2, o2)
        ∧ o2.price = order1.price
        ∧ (findOrderById s2.orders 1).map Order.price = some order1.price :=
  add_then_remove_restores_price 1 ⟨1, "vanilla", 2, 4⟩ bob baseStore order1
    rfl (by norm_num [order1, item1, calcPrice]) (by decide) (by decide)

/-! ### C6 -/

/-- C6 at its failing input: the `/auth/signup` endpoint declares
`current_user: User = Depends(verify_token)` as a required dependency, so a
request without a bearer token on an empty store is rejected 401 by the
security gate before the signup body runs — the first-admin bootstrap is
unreachable at the endpoint, although the body itself (written against an
optional principal: it tests `not current_user`, and its docstring promises
that the first registered user can be an admin) succeeds when handed the
absent principal.  The order endpoints are gated by the same dependency, as
the claim states. -/
theorem signup_gate_contradicts_optional_principal :
    signup_endpoint hashW cfgW 0 none adminSchema emptyStore =
      .error ⟨401, "Not authenticated"⟩
    ∧ (signup hashW adminSchema none emptyStore).isOk = true
    ∧ secured cfgW 0 none emptyStore (fun u => get_order 1 u emptyStore) =
        .error ⟨401, "Not authenticated"⟩
    ∧ secured cfgW 0 none emptyStore (fun u => list_orders u emptyStore) =
        .error ⟨401, "Not authenticated"⟩ :=
  ⟨rfl, rfl, rfl, rfl⟩

/-! ### C10 -/

/-- C10: `verify_token` does not distinguish token kinds.  Any token signed
with the configured secret and algorithm whose expiry has not passed and
whose subject resolves to a stored user is accepted: a 7-day refresh token
authenticates every order handler (every handler behind the `verify_token`
gate runs with the resolved principal), and a short-lived access token is
accepted by the refresh endpoint, which mints a new access token for it. -/
theorem token_kinds_interchangeable (cfg : Config) (s : Store) (uid : Nat)
    (u : User) (t_issue now : Int)
    (hu : findUserById s.users uid = some u)
    (hsub : pyInt (toString uid) = some uid) :
    (now ≤ t_issue + refreshTokenTime →
      verify_token cfg now (some (get_token cfg uid refreshTokenTime t_issue)) s
        = .ok u
      ∧ ∀ (α : Type) (handler : User → Except HTTPException α),
          secured cfg now (some (get_token cfg uid refreshTokenTime t_issue)) s
            handler = handler u)
    ∧ (now ≤ t_issue + accessTokenTime cfg →
        user_refresh_token cfg now
          (some (get_token cfg uid (accessTokenTime cfg) t_issue)) s =
          .ok (get_token cfg u.id (accessTokenTime cfg) now)) := by
  have hver : ∀ d : Int, now ≤ t_issue + d →
      verify_token cfg now (some (get_token cfg uid d t_issue)) s = .ok u := by
    intro d hd
    simp [verify_token, jwt_decode, get_token, hd, hsub, hu]
  exact ⟨fun h => ⟨hver _ h, fun α handler => by simp [secured, hver _ h]⟩,
    fun h => by simp [user_refresh_token, hver _ h]⟩

/-- Witness for C10: in `baseStore`, the refresh token of `bob` issued at
time 0 authenticates a `get_order` call at time 1000, and his access token is
accepted by the refresh endpoint at time 1000. -/
theorem token_kinds_interchangeable_wit :
    verify_token cfgW 1000 (some (get_token cfgW 2 refreshTokenTime 0)) baseStore
      = .ok bob
    ∧ secured cfgW 1000 (some (get_token cfgW 2 refreshTokenTime 0)) baseStore
        (fun u => get_order 1 u baseStore) = get_order 1 bob baseStore
    ∧ user_refresh_token cfgW 1000
        (some (get_token cfgW 2 (accessTokenTime cfgW) 0)) baseStore =
        .ok (get_token cfgW bob.id (accessTokenTime cfgW) 1000) :=
  ⟨((token_kinds_interchangeable cfgW baseStore 2 bob 0 1000 (by decide)
      (by decide)).1 (by decide)).1,
   ((token_kinds_interchangeable cfgW baseStore 2 bob 0 1000 (by decide)
      (by decide)).1 (by decide)).2 _ (fun u => get_order 1 u baseStore),
   (token_kinds_interchangeable cfgW baseStore 2 bob 0 1000 (by decide)
      (by decide)).2 (by decide)⟩

end FastApiDelivery